import Mathlib

/-!
Shallow embedding of the detection-fusion and multi-object tracking core of
`object_finder.py`.

Pixel coordinates are natural numbers (boxes come from `np.nonzero` indices
and `np.min` and `np.max` over them, and a track's averaged box is stored as
`np.uint32`).  The source casts boxes to floating point right before the
normalized-distance computation; that computation is modelled over the real
numbers, with the float floor-division `// 2` modelled by the integer floor.
-/

/-- Configuration `dist_thresh = 0.1`: threshold for the relative distance
used to join objects. -/
noncomputable def dist_thresh : ℝ := 0.1

/-- Configuration `last_seen_thresh = 24`: frames to wait before deleting a
previously detected object that got no new match. -/
def last_seen_thresh : ℕ := 24

/-- Default `age_threshold = 8` used by `remove_lost_objects` and
`draw_info`. -/
def age_threshold : ℕ := 8

/-- A bounding box `[x1, y1, x2, y2]` in pixel coordinates. -/
structure Box where
  x1 : ℕ
  y1 : ℕ
  x2 : ℕ
  y2 : ℕ
  deriving DecidableEq, Repr

/-- Placeholder box used to total out-of-range list indexing; every indexed
access in the development is within bounds. -/
def dfltBox : Box := ⟨0, 0, 0, 0⟩

/-- `np.mean(boxes, axis=0).astype(np.uint32)`: per-coordinate mean with the
fractional part discarded, wrapped to the unsigned 32-bit range.  On the
natural numbers the truncation is exactly `Nat` division by the list
length. -/
def npBoxMean (boxes : List Box) : Box :=
  { x1 := (boxes.map Box.x1).sum / boxes.length % 2 ^ 32,
    y1 := (boxes.map Box.y1).sum / boxes.length % 2 ^ 32,
    x2 := (boxes.map Box.x2).sum / boxes.length % 2 ^ 32,
    y2 := (boxes.map Box.y2).sum / boxes.length % 2 ^ 32 }

/-- The window mean as the claim words it: the exact rational average of each
coordinate, truncated to an integer (floor) and wrapped to 32 bits. -/
def truncatedWindowMean (w : List Box) : Box :=
  { x1 := ⌊((w.map Box.x1).sum : ℚ) / (w.length : ℚ)⌋₊ % 2 ^ 32,
    y1 := ⌊((w.map Box.y1).sum : ℚ) / (w.length : ℚ)⌋₊ % 2 ^ 32,
    x2 := ⌊((w.map Box.x2).sum : ℚ) / (w.length : ℚ)⌋₊ % 2 ^ 32,
    y2 := ⌊((w.map Box.y2).sum : ℚ) / (w.length : ℚ)⌋₊ % 2 ^ 32 }

/-- One tracked object (`class BoxObject`).  The Python constructor sets
`avg_box = None` and immediately calls `update(box)`, which assigns it; here
`avg_box` is therefore non-optional and `mkBoxObject` performs that first
update. -/
structure BoxObject where
  is_hidden : Bool
  last_boxes : List Box
  avg_box : Box
  last_seen : ℕ
  age : ℕ
  num_frames : ℕ
  deriving DecidableEq, Repr

/-- `BoxObject.update`: with a real box, append it, recompute `avg_box` over
the trailing window `last_boxes[-bound:]` with `bound = min(len, num_frames)`,
and reset `last_seen`; with no detection, only bump `last_seen`.  `age`
increments on both branches.  (Python's `lst[-0:]` is the whole list, hence
the `bound = 0` case.) -/
def BoxObject.update (t : BoxObject) (box : Option Box) : BoxObject :=
  match box with
  | some b =>
    { t with
        last_boxes := t.last_boxes ++ [b],
        avg_box :=
          npBoxMean
            (if min (t.last_boxes ++ [b]).length t.num_frames = 0 then
              t.last_boxes ++ [b]
            else
              (t.last_boxes ++ [b]).drop
                ((t.last_boxes ++ [b]).length - min (t.last_boxes ++ [b]).length t.num_frames)),
        last_seen := 0,
        age := t.age + 1 }
  | none => { t with last_seen := t.last_seen + 1, age := t.age + 1 }

/-- `BoxObject.unhide`: if hidden, extend `last_boxes` with `num_frames`
copies of the new box and clear the flag.  Note that `avg_box` is not
recomputed here. -/
def BoxObject.unhide (t : BoxObject) (b : Box) : BoxObject :=
  if t.is_hidden then
    { t with last_boxes := t.last_boxes ++ List.replicate t.num_frames b,
             is_hidden := false }
  else t

/-- `BoxObject.__init__`: fresh track from a single box (`num_frames = 10`,
then `update(box)` runs once, so `age = 1` and `last_seen = 0`). -/
def mkBoxObject (b : Box) : BoxObject :=
  BoxObject.update
    { is_hidden := false, last_boxes := [], avg_box := dfltBox,
      last_seen := 0, age := 0, num_frames := 10 }
    (some b)

/-- The visibility test of `draw_info`: a track is drawn (and counted) when
`len(last_boxes) > age_threshold`. -/
def isDrawn (o : BoxObject) : Bool :=
  age_threshold < o.last_boxes.length

/-- Pixel membership for `add_heat`: numpy slicing
`heatmap[y1:y2, x1:x2]` is half-open in both axes. -/
def coversPixel (b : Box) (x y : ℕ) : Bool :=
  b.x1 ≤ x && x < b.x2 && b.y1 ≤ y && y < b.y2

/-- One `heatmap[box[0][1]:box[1][1], box[0][0]:box[1][0]] += 1` step. -/
def addHeatBox (h : ℕ → ℕ → ℕ) (b : Box) : ℕ → ℕ → ℕ :=
  fun x y => if coversPixel b x y then h x y + 1 else h x y

/-- `ObjectProcess.add_heat`: accumulate every box onto the heatmap. -/
def add_heat (h : ℕ → ℕ → ℕ) (bs : List Box) : ℕ → ℕ → ℕ :=
  bs.foldl addHeatBox h

/-- The all-zero heatmap `np.zeros_like(image[:, :, 0])`. -/
def zeroHeat : ℕ → ℕ → ℕ := fun _ _ => 0

/-- The size test of `ObjectProcess.remove_outliers`.  Widths and heights are
compared as (Python) integers; both comparisons against row 450 are
strict. -/
def keepBox (bc : Box) : Bool :=
  if (bc.y1 : ℤ) < 450 ∧ (bc.x2 : ℤ) - bc.x1 > 32 ∧ (bc.y2 : ℤ) - bc.y1 > 32 then
    true
  else if (bc.y1 : ℤ) > 450 ∧ (bc.x2 : ℤ) - bc.x1 > 64 ∧ (bc.y2 : ℤ) - bc.y1 > 64 then
    true
  else false

/-- `ObjectProcess.remove_outliers`: keep, in order, the boxes passing the
size filter. -/
def remove_outliers (boxes : List Box) : List Box :=
  boxes.filter keepBox

/-- `ObjectProcess.remove_lost_objects` with its default `age_threshold = 8`:
keep a track when `last_seen < last_seen_thresh` and it is not an
early-hidden track. -/
def remove_lost_objects : List BoxObject → List BoxObject
  | [] => []
  | o :: rest =>
    if o.last_seen < last_seen_thresh ∧ ¬(o.is_hidden = true ∧ o.age < age_threshold) then
      o :: remove_lost_objects rest
    else
      remove_lost_objects rest

/-- A box after the `astype(np.float)` cast: real-valued coordinates. -/
structure RBox where
  x1 : ℝ
  y1 : ℝ
  x2 : ℝ
  y2 : ℝ

/-- Cast of a pixel box into the reals (`box.astype(np.float)`). -/
noncomputable def toRBox (b : Box) : RBox :=
  ⟨(b.x1 : ℝ), (b.y1 : ℝ), (b.x2 : ℝ), (b.y2 : ℝ)⟩

/-- Scaling all four coordinates of a box by a factor. -/
noncomputable def scaleRBox (k : ℝ) (b : RBox) : RBox :=
  ⟨k * b.x1, k * b.y1, k * b.x2, k * b.y2⟩

/-- Float floor-division by two (`width // 2` on floats). -/
noncomputable def floorHalf (a : ℝ) : ℝ :=
  (⌊a / 2⌋ : ℤ)

/-- `get_center_points` for one box: `(x1 + width // 2, y1 + height // 2)`.
The source vectorizes this over an array of boxes. -/
noncomputable def get_center_points (b : RBox) : ℝ × ℝ :=
  (b.x1 + floorHalf (b.x2 - b.x1), b.y1 + floorHalf (b.y2 - b.y1))

/-- The per-box quantity the source uses as a "diagonal":
`np.sqrt(box[0] ** 2 + box[2] ** 2)`, i.e. it is computed from the two
x-corner coordinates `x1` and `x2`. -/
noncomputable def codeDiag (b : RBox) : ℝ :=
  Real.sqrt (b.x1 ^ 2 + b.x2 ^ 2)

/-- The diagonal as the specification words it:
`sqrt(width ** 2 + height ** 2)`. -/
noncomputable def specDiag (b : RBox) : ℝ :=
  Real.sqrt ((b.x2 - b.x1) ^ 2 + (b.y2 - b.y1) ^ 2)

/-- The normalized distance the source computes for one candidate:
center distance over the mean of the two `codeDiag` values. -/
noncomputable def boxDistance (b o : RBox) : ℝ :=
  Real.sqrt (((get_center_points b).1 - (get_center_points o).1) ^ 2 +
      ((get_center_points b).2 - (get_center_points o).2) ^ 2) /
    ((codeDiag b + codeDiag o) / 2)

/-- The normalized distance as the specification words it: center distance
over the mean of the two box diagonals. -/
noncomputable def specDistance (b o : RBox) : ℝ :=
  Real.sqrt (((get_center_points b).1 - (get_center_points o).1) ^ 2 +
      ((get_center_points b).2 - (get_center_points o).2) ^ 2) /
    ((specDiag b + specDiag o) / 2)

/-- `distances.min()` of a (nonempty) numpy array. -/
noncomputable def npMin : List ℝ → ℝ
  | [] => 0
  | x :: xs => xs.foldl min x

/-- Helper for `npArgmin`: first index of the strict minimum so far. -/
noncomputable def npArgminGo : List ℝ → ℝ → ℕ → ℕ → ℕ
  | [], _, bi, _ => bi
  | x :: xs, bv, bi, ci =>
    if x < bv then npArgminGo xs x ci (ci + 1) else npArgminGo xs bv bi (ci + 1)

/-- `distances.argmin()`: index of the first minimum of the array. -/
noncomputable def npArgmin : List ℝ → ℕ
  | [] => 0
  | x :: xs => npArgminGo xs x 0 1

/-- `get_closest_box`: the minimum normalized distance from `box` to the
candidates together with the index attaining it. -/
noncomputable def get_closest_box (b : RBox) (os : List RBox) : ℝ × ℕ :=
  (npMin (os.map (boxDistance b)), npArgmin (os.map (boxDistance b)))

/-- Loop body of `ObjectProcess.update_objects` for one track: match the
track's `avg_box` against all candidates; inside the threshold, mark the
track hidden when the candidate was already claimed, update with the
candidate and claim it; otherwise update with no detection. -/
noncomputable def updateStep (boxes : List Box) (acc : List BoxObject × List Bool)
    (o : BoxObject) : List BoxObject × List Bool :=
  if (get_closest_box (toRBox o.avg_box) (boxes.map toRBox)).1 < dist_thresh then
    (acc.1 ++
        [(if acc.2.getD (get_closest_box (toRBox o.avg_box) (boxes.map toRBox)).2 false then
              { o with is_hidden := true }
            else o).update
          (some (boxes.getD (get_closest_box (toRBox o.avg_box) (boxes.map toRBox)).2 dfltBox))],
      acc.2.set (get_closest_box (toRBox o.avg_box) (boxes.map toRBox)).2 true)
  else
    (acc.1 ++ [o.update none], acc.2)

/-- `ObjectProcess.update_objects`: with no candidates every track takes the
no-detection branch; otherwise the tracks are matched in creation order
against a shared `used_boxes` claim vector (initially all false).  Returns
the updated track list together with the claim vector. -/
noncomputable def update_objects (objs : List BoxObject) (boxes : List Box) :
    List BoxObject × List Bool :=
  if boxes.length = 0 then
    (objs.map (fun o => o.update none), List.replicate boxes.length false)
  else
    objs.foldl (updateStep boxes) ([], List.replicate boxes.length false)

/-- Concrete data used by the evaluation theorems below. -/
def B0 : Box := ⟨0, 0, 2, 2⟩

/-- A second concrete box, away from `B0`. -/
def B1 : Box := ⟨4, 4, 8, 8⟩

/-- A freshly spawned track on `B0`. -/
def T0 : BoxObject := mkBoxObject B0

/-- The same track with the occlusion flag forced on. -/
def T1 : BoxObject := { T0 with is_hidden := true }

theorem npBoxMean_eq_truncated (w : List Box) : npBoxMean w = truncatedWindowMean w := by
  have h : ∀ s n : ℕ, ⌊((s : ℚ)) / ((n : ℚ))⌋₊ = s / n := by
    intro s n
    rw [Nat.floor_div_nat, Nat.floor_natCast]
  unfold npBoxMean truncatedWindowMean
  rw [h, h, h, h]

theorem update_some_fields (t : BoxObject) (b : Box) :
    (t.update (some b)).is_hidden = t.is_hidden ∧
    (t.update (some b)).age = t.age + 1 ∧
    (t.update (some b)).last_seen = 0 ∧
    (t.update (some b)).last_boxes = t.last_boxes ++ [b] := by
  simp [BoxObject.update]

theorem keepBox_iff (b : Box) :
    keepBox b = true ↔
      (((b.y1 : ℤ) < 450 ∧ (b.x2 : ℤ) - b.x1 > 32 ∧ (b.y2 : ℤ) - b.y1 > 32) ∨
        ((b.y1 : ℤ) > 450 ∧ (b.x2 : ℤ) - b.x1 > 64 ∧ (b.y2 : ℤ) - b.y1 > 64)) := by
  unfold keepBox
  split
  next h => simp only [true_iff]; exact Or.inl h
  next h =>
    split
    next h2 => simp only [true_iff]; exact Or.inr h2
    next h2 =>
      simp only [Bool.false_eq_true, false_iff]
      exact fun hc => hc.elim h h2

/-- Claim C2 counterexample: the box `(0, 450, 100, 550)` has its top edge
exactly on row 450 and width and height 100 > 64, so the claim says it is
kept, yet `remove_outliers` drops it (both comparisons with 450 are
strict). -/
theorem c2_counterexample :
    remove_outliers [(⟨0, 450, 100, 550⟩ : Box)] = [] ∧
      (⟨0, 450, 100, 550⟩ : Box).y1 = 450 ∧
      ((⟨0, 450, 100, 550⟩ : Box).x2 : ℤ) - (⟨0, 450, 100, 550⟩ : Box).x1 > 64 ∧
      ((⟨0, 450, 100, 550⟩ : Box).y2 : ℤ) - (⟨0, 450, 100, 550⟩ : Box).y1 > 64 := by
  decide

/-- Claim C2 (amended): `remove_outliers` keeps a box exactly when
`y1 < 450` with width and height both above 32, or `450 < y1` with width and
height both above 64; a box whose top edge is exactly on row 450 is always
rejected, and the scenario box with `y1 = 500` and width and height 50 is
rejected. -/
theorem c2_remove_outliers :
    (∀ (l : List Box) (b : Box),
      b ∈ remove_outliers l ↔
        b ∈ l ∧
          (((b.y1 : ℤ) < 450 ∧ (b.x2 : ℤ) - b.x1 > 32 ∧ (b.y2 : ℤ) - b.y1 > 32) ∨
            ((b.y1 : ℤ) > 450 ∧ (b.x2 : ℤ) - b.x1 > 64 ∧ (b.y2 : ℤ) - b.y1 > 64))) ∧
    (∀ (l : List Box) (b : Box), b.y1 = 450 → b ∉ remove_outliers l) ∧
    remove_outliers [(⟨0, 500, 50, 550⟩ : Box)] = [] := by
  have key : ∀ (l : List Box) (b : Box),
      b ∈ remove_outliers l ↔
        b ∈ l ∧
          (((b.y1 : ℤ) < 450 ∧ (b.x2 : ℤ) - b.x1 > 32 ∧ (b.y2 : ℤ) - b.y1 > 32) ∨
            ((b.y1 : ℤ) > 450 ∧ (b.x2 : ℤ) - b.x1 > 64 ∧ (b.y2 : ℤ) - b.y1 > 64)) := by
    intro l b
    rw [remove_outliers, List.mem_filter, keepBox_iff]
  refine ⟨key, ?_, by decide⟩
  intro l b h450 hmem
  rcases (key l b).mp hmem with ⟨-, hcond⟩
  rcases hcond with ⟨h, -⟩ | ⟨h, -⟩ <;> rw [h450] at h <;> omega

/-- Claim C2 witness for the amended boundary statement: the concrete box
`(0, 450, 100, 550)` has `y1 = 450` and is not kept. -/
theorem c2_witness :
    (⟨0, 450, 100, 550⟩ : Box).y1 = 450 ∧
      (⟨0, 450, 100, 550⟩ : Box) ∉ remove_outliers [(⟨0, 450, 100, 550⟩ : Box)] :=
  ⟨rfl, c2_remove_outliers.2.1 _ _ rfl⟩

/-- Claim C3 counterexample: a hidden track whose smoothed box is
`(0, 0, 2, 2)` is unhidden with the box `(4, 4, 8, 8)`; immediately after the
unhide its `avg_box` is unchanged and in particular differs from the new
box. -/
theorem c3_counterexample :
    T1.is_hidden = true ∧ (T1.unhide B1).avg_box ≠ B1 := by
  decide

/-- Claim C3 (amended): a successful unhide clears `hidden` and appends
`num_frames` copies of the matched box, so the trailing smoothing window
consists solely of that box, but `avg_box` is not recomputed by the unhide:
it keeps its pre-unhide value until the next update that receives a box. -/
theorem c3_unhide_semantics (t : BoxObject) (b : Box) (h : t.is_hidden = true) :
    (t.unhide b).is_hidden = false ∧
    (t.unhide b).avg_box = t.avg_box ∧
    (t.unhide b).last_boxes = t.last_boxes ++ List.replicate t.num_frames b ∧
    ((t.unhide b).last_boxes).drop ((t.unhide b).last_boxes.length - t.num_frames) =
      List.replicate t.num_frames b := by
  unfold BoxObject.unhide
  rw [h]
  refine ⟨rfl, rfl, rfl, ?_⟩
  simp [List.length_append, List.length_replicate, Nat.add_sub_cancel, List.drop_left]

/-- Claim C3 witness: the amended statement at the concrete hidden track
`T1` and box `B1`. -/
theorem c3_witness :
    T1.is_hidden = true ∧
      ((T1.unhide B1).is_hidden = false ∧
       (T1.unhide B1).avg_box = T1.avg_box ∧
       (T1.unhide B1).last_boxes = T1.last_boxes ++ List.replicate T1.num_frames B1 ∧
       ((T1.unhide B1).last_boxes).drop ((T1.unhide B1).last_boxes.length - T1.num_frames) =
         List.replicate T1.num_frames B1) :=
  ⟨rfl, c3_unhide_semantics T1 B1 rfl⟩

/-- Claim C4: pruning removes a track exactly when
`frames_since_seen ≥ last_seen_thresh` (24) or it is hidden with `age` below
`age_threshold` (8); in particular a non-early-hidden track with
`last_seen = 23` survives and one with `last_seen = 24` is removed. -/
theorem c4_prune_exact :
    (∀ (objs : List BoxObject) (t : BoxObject),
      t ∈ remove_lost_objects objs ↔
        t ∈ objs ∧
          ¬(last_seen_thresh ≤ t.last_seen ∨ (t.is_hidden = true ∧ t.age < age_threshold))) ∧
    (∀ t : BoxObject, t.last_seen = 23 → ¬(t.is_hidden = true ∧ t.age < age_threshold) →
      t ∈ remove_lost_objects [t]) ∧
    (∀ t : BoxObject, t.last_seen = 24 → t ∉ remove_lost_objects [t]) := by
  have key : ∀ (objs : List BoxObject) (t : BoxObject),
      t ∈ remove_lost_objects objs ↔
        t ∈ objs ∧
          ¬(last_seen_thresh ≤ t.last_seen ∨ (t.is_hidden = true ∧ t.age < age_threshold)) := by
    intro objs t
    rw [not_or, Nat.not_le]
    induction objs with
    | nil => simp [remove_lost_objects]
    | cons o rest ih =>
      simp only [remove_lost_objects]
      split
      next hk =>
        simp only [List.mem_cons, ih]
        constructor
        · rintro (rfl | ⟨hm, hc⟩)
          · exact ⟨Or.inl rfl, hk⟩
          · exact ⟨Or.inr hm, hc⟩
        · rintro ⟨rfl | hm, hc⟩
          · exact Or.inl rfl
          · exact Or.inr ⟨hm, hc⟩
      next hk =>
        rw [ih, List.mem_cons]
        constructor
        · rintro ⟨hm, hc⟩
          exact ⟨Or.inr hm, hc⟩
        · rintro ⟨rfl | hm, hc⟩
          · exact absurd hc hk
          · exact ⟨hm, hc⟩
  refine ⟨key, ?_, ?_⟩
  · intro t h23 hnh
    refine (key [t] t).mpr ⟨List.mem_cons_self _ _, ?_⟩
    rw [not_or, Nat.not_le, h23]
    exact ⟨by norm_num [last_seen_thresh], hnh⟩
  · intro t h24 hmem
    rcases (key [t] t).mp hmem with ⟨-, hc⟩
    rw [not_or, Nat.not_le, h24] at hc
    exact absurd hc.1 (by norm_num [last_seen_thresh])

/-- Claim C4 witness: a track with `last_seen = 23`, not early-hidden,
survives pruning, and the same track with `last_seen = 24` is removed. -/
theorem c4_witness :
    ({ T0 with last_seen := 23 } : BoxObject).last_seen = 23 ∧
      ¬(({ T0 with last_seen := 23 } : BoxObject).is_hidden = true ∧
        ({ T0 with last_seen := 23 } : BoxObject).age < age_threshold) ∧
      ({ T0 with last_seen := 23 } : BoxObject) ∈
        remove_lost_objects [{ T0 with last_seen := 23 }] ∧
      ({ T0 with last_seen := 24 } : BoxObject).last_seen = 24 ∧
      ({ T0 with last_seen := 24 } : BoxObject) ∉
        remove_lost_objects [{ T0 with last_seen := 24 }] :=
  ⟨rfl, by decide, c4_prune_exact.2.1 _ rfl (by decide), rfl, c4_prune_exact.2.2 _ rfl⟩

/-- Claim C9: a successful unhide extends the history by `num_frames = 10`
copies in one step, so a track whose history length was at most the
visibility threshold 8 beforehand is drawn by `draw_info` immediately
afterwards. -/
theorem c9_unhide_length_visibility (t : BoxObject) (b : Box)
    (hh : t.is_hidden = true) (hn : t.num_frames = 10)
    (hlen : t.last_boxes.length ≤ age_threshold) :
    (t.unhide b).last_boxes.length = t.last_boxes.length + 10 ∧
    isDrawn t = false ∧ isDrawn (t.unhide b) = true := by
  unfold BoxObject.unhide
  rw [hh]
  refine ⟨by simp [hn], ?_, ?_⟩
  · have : ¬(age_threshold < t.last_boxes.length) := by omega
    simp [isDrawn, this]
  · have : age_threshold < t.last_boxes.length + 10 := by
      unfold age_threshold
      omega
    simp [isDrawn, hn, this]

/-- Claim C9 witness: the hidden track `T1` has history length 1 ≤ 8 and is
not drawn; after one unhide its history length is 11 and it is drawn. -/
theorem c9_witness :
    T1.is_hidden = true ∧ T1.num_frames = 10 ∧ T1.last_boxes.length ≤ age_threshold ∧
      ((T1.unhide B1).last_boxes.length = T1.last_boxes.length + 10 ∧
       isDrawn T1 = false ∧ isDrawn (T1.unhide B1) = true) :=
  ⟨rfl, rfl, by decide, c9_unhide_length_visibility T1 B1 rfl rfl (by decide)⟩

/-- Claim C10: updating a track with a real box recomputes `avg_box` as the
per-coordinate arithmetic mean of the trailing window of at most
`num_frames = 10` history entries, truncated to an unsigned 32-bit integer
(the fractional part of the rational mean is discarded). -/
theorem c10_truncated_window_mean (t : BoxObject) (b : Box) (hn : t.num_frames = 10) :
    (t.update (some b)).avg_box =
      truncatedWindowMean
        ((t.last_boxes ++ [b]).drop
          ((t.last_boxes ++ [b]).length - min (t.last_boxes ++ [b]).length 10)) := by
  have hne : ¬(min (t.last_boxes ++ [b]).length 10 = 0) := by
    simp only [List.length_append, List.length_singleton]
    omega
  simp only [BoxObject.update, hn]
  rw [if_neg hne, npBoxMean_eq_truncated]

/-- Claim C10 witness: the concrete track `T0` updated with the box `B1`. -/
theorem c10_witness :
    T0.num_frames = 10 ∧
      (T0.update (some B1)).avg_box =
        truncatedWindowMean
          ((T0.last_boxes ++ [B1]).drop
            ((T0.last_boxes ++ [B1]).length - min (T0.last_boxes ++ [B1]).length 10)) :=
  ⟨rfl, c10_truncated_window_mean T0 B1 rfl⟩

theorem add_heat_countP (l : List Box) (h : ℕ → ℕ → ℕ) (x y : ℕ) :
    add_heat h l x y = h x y + l.countP (fun b => coversPixel b x y) := by
  induction l generalizing h with
  | nil => simp [add_heat]
  | cons b bs ih =>
    simp only [add_heat, List.foldl_cons] at ih ⊢
    rw [ih (addHeatBox h b), List.countP_cons]
    by_cases hc : coversPixel b x y = true
    · simp only [addHeatBox, hc, if_pos]
      omega
    · simp only [addHeatBox, hc, if_neg, Bool.false_eq_true, not_false_eq_true, ite_false]
      omega

/-- Claim C7: on the all-zero heatmap, each accumulated pixel value counts
the boxes whose half-open rectangle covers that pixel, and accumulating any
permutation of the same boxes produces the identical heatmap value. -/
theorem c7_heat_order_independent (l l2 : List Box) (hp : List.Perm l l2) (x y : ℕ) :
    add_heat zeroHeat l x y = l.countP (fun b => coversPixel b x y) ∧
    add_heat zeroHeat l x y = add_heat zeroHeat l2 x y := by
  constructor
  · rw [add_heat_countP]
    simp [zeroHeat]
  · rw [add_heat_countP, add_heat_countP, hp.countP_eq]

/-- Claim C7 witness: the two-element lists `[B0, B1]`, `[B1, B0]` are a
permutation pair and both give the pixel `(1, 1)` the value counted by
coverage. -/
theorem c7_witness :
    List.Perm [B0, B1] [B1, B0] ∧
      (add_heat zeroHeat [B0, B1] 1 1 = List.countP (fun b => coversPixel b 1 1) [B0, B1] ∧
       add_heat zeroHeat [B0, B1] 1 1 = add_heat zeroHeat [B1, B0] 1 1) :=
  ⟨List.Perm.swap B1 B0 [], c7_heat_order_independent [B0, B1] [B1, B0] (List.Perm.swap B1 B0 []) 1 1⟩

/-- Claim C8: updating against an empty candidate list is the normal
no-detection path: every track keeps its history and smoothed box, has
`last_seen` and `age` bumped by one, and no candidate is claimed. -/
theorem c8_empty_candidates (objs : List BoxObject) :
    (update_objects objs []).1 =
      objs.map (fun o => { o with last_seen := o.last_seen + 1, age := o.age + 1 }) ∧
    (update_objects objs []).2 = [] := by
  unfold update_objects
  simp [BoxObject.update]

theorem getD_replicate_false (n j : ℕ) : (List.replicate n false).getD j false = false := by
  induction n generalizing j with
  | zero => cases j <;> rfl
  | succ n ih =>
    cases j with
    | zero => rfl
    | succ j =>
      simp only [List.replicate_succ, List.getD_cons_succ]
      exact ih j

theorem getD_set_self (l : List Bool) (j : ℕ) (hj : j < l.length) (a : Bool) :
    (l.set j a).getD j false = a := by
  induction l generalizing j with
  | nil => simp at hj
  | cons x xs ih =>
    cases j with
    | zero => rfl
    | succ j =>
      simp only [List.set_cons_succ, List.getD_cons_succ]
      exact ih j (by simpa using hj)

theorem count_true_replicate (n : ℕ) : (List.replicate n false).count true = 0 := by
  induction n with
  | zero => rfl
  | succ n ih => simp [List.replicate_succ, List.count_cons, ih]

theorem count_true_set (n j : ℕ) (hj : j < n) :
    ((List.replicate n false).set j true).count true = 1 := by
  induction n generalizing j with
  | zero => omega
  | succ n ih =>
    cases j with
    | zero =>
      simp [List.replicate_succ, List.count_cons, count_true_replicate]
    | succ j =>
      simp [List.replicate_succ, List.count_cons, ih j (by omega)]

theorem floorHalf_eval {a : ℝ} {z : ℤ} (hl : (z : ℝ) ≤ a / 2) (hu : a / 2 < z + 1) :
    floorHalf a = (z : ℝ) := by
  unfold floorHalf
  rw [Int.floor_eq_iff.mpr ⟨hl, hu⟩]

theorem sqrt_eval {x a : ℝ} (ha : 0 ≤ a) (hx : x = a ^ 2) : Real.sqrt x = a := by
  rw [hx, Real.sqrt_sq ha]

theorem boxDistance_self (b : RBox) : boxDistance b b = 0 := by
  unfold boxDistance
  have h : ((get_center_points b).1 - (get_center_points b).1) ^ 2 +
      ((get_center_points b).2 - (get_center_points b).2) ^ 2 = 0 := by ring
  rw [h, Real.sqrt_zero, zero_div]

theorem get_closest_box_singleton (b o : RBox) :
    get_closest_box b [o] = (boxDistance b o, 0) := rfl

/-- Claim C1: at the track box `(0, 0, 3, 4)` and candidate `(0, 8, 3, 12)`
the code's distance is `8/3` — the center distance 8 divided by the mean of
`sqrt(x1^2 + x2^2) = 3` — while the distance the claim (and the function's
own docstring) describes, dividing by the mean diagonal
`sqrt(width^2 + height^2) = 5`, is `8/5`. -/
theorem c1_distance_divergence :
    (get_closest_box ⟨0, 0, 3, 4⟩ [(⟨0, 8, 3, 12⟩ : RBox)]).1 = 8 / 3 ∧
    specDistance ⟨0, 0, 3, 4⟩ ⟨0, 8, 3, 12⟩ = 8 / 5 ∧
    ((8 : ℝ) / 3 ≠ 8 / 5) := by
  have hf3 : floorHalf (3 : ℝ) = ((1 : ℤ) : ℝ) := floorHalf_eval (by norm_num) (by norm_num)
  have hf4 : floorHalf (4 : ℝ) = ((2 : ℤ) : ℝ) := floorHalf_eval (by norm_num) (by norm_num)
  have h64 : Real.sqrt 64 = 8 := sqrt_eval (by norm_num) (by norm_num)
  have h9 : Real.sqrt 9 = 3 := sqrt_eval (by norm_num) (by norm_num)
  have h25 : Real.sqrt 25 = 5 := sqrt_eval (by norm_num) (by norm_num)
  refine ⟨?_, ?_, by norm_num⟩
  · rw [get_closest_box_singleton]
    unfold boxDistance get_center_points codeDiag
    norm_num [hf3, hf4, h64, h9]
  · unfold specDistance get_center_points specDiag
    norm_num [hf3, hf4, h64, h25]

theorem codeDiag_scale {k : ℝ} (hk : 0 ≤ k) (b : RBox) :
    codeDiag (scaleRBox k b) = k * codeDiag b := by
  unfold codeDiag scaleRBox
  rw [show (k * b.x1) ^ 2 + (k * b.x2) ^ 2 = k ^ 2 * (b.x1 ^ 2 + b.x2 ^ 2) by ring,
    Real.sqrt_mul (sq_nonneg k), Real.sqrt_sq hk]

theorem center_scale_even (k : ℕ) (b : RBox)
    (hx : ∃ m : ℤ, b.x2 - b.x1 = 2 * m) (hy : ∃ m : ℤ, b.y2 - b.y1 = 2 * m) :
    (get_center_points (scaleRBox (k : ℝ) b)).1 = k * (get_center_points b).1 ∧
    (get_center_points (scaleRBox (k : ℝ) b)).2 = k * (get_center_points b).2 := by
  obtain ⟨mx, hmx⟩ := hx
  obtain ⟨my, hmy⟩ := hy
  unfold get_center_points scaleRBox floorHalf
  constructor
  · have h1 : ⌊((k : ℝ) * b.x2 - (k : ℝ) * b.x1) / 2⌋ = (k : ℤ) * mx := by
      rw [show (k : ℝ) * b.x2 - (k : ℝ) * b.x1 = (k : ℝ) * (b.x2 - b.x1) by ring, hmx,
        show (k : ℝ) * (2 * (mx : ℝ)) / 2 = (((k : ℤ) * mx : ℤ) : ℝ) by push_cast; ring]
      exact Int.floor_intCast _
    have h2 : ⌊(b.x2 - b.x1) / 2⌋ = mx := by
      rw [hmx, show (2 : ℝ) * (mx : ℝ) / 2 = ((mx : ℤ) : ℝ) by ring]
      exact Int.floor_intCast _
    rw [h1, h2]
    push_cast
    ring
  · have h1 : ⌊((k : ℝ) * b.y2 - (k : ℝ) * b.y1) / 2⌋ = (k : ℤ) * my := by
      rw [show (k : ℝ) * b.y2 - (k : ℝ) * b.y1 = (k : ℝ) * (b.y2 - b.y1) by ring, hmy,
        show (k : ℝ) * (2 * (my : ℝ)) / 2 = (((k : ℤ) * my : ℤ) : ℝ) by push_cast; ring]
      exact Int.floor_intCast _
    have h2 : ⌊(b.y2 - b.y1) / 2⌋ = my := by
      rw [hmy, show (2 : ℝ) * (my : ℝ) / 2 = ((my : ℤ) : ℝ) by ring]
      exact Int.floor_intCast _
    rw [h1, h2]
    push_cast
    ring

/-- Claim C6 counterexample: with the boxes `A = (0, 0, 1, 1)` and
`B = (6, 0, 8, 1)` and scale factor `k = 2`, the unscaled distance is
`14/11` but the scaled one is `13/11` — the floor in the center computation
breaks scale invariance. -/
theorem c6_counterexample :
    (0 : ℝ) < 2 ∧
      boxDistance (scaleRBox 2 ⟨0, 0, 1, 1⟩) (scaleRBox 2 ⟨6, 0, 8, 1⟩) ≠
        boxDistance ⟨0, 0, 1, 1⟩ ⟨6, 0, 8, 1⟩ := by
  have hf1 : floorHalf (1 : ℝ) = ((0 : ℤ) : ℝ) := floorHalf_eval (by norm_num) (by norm_num)
  have hf2 : floorHalf (2 : ℝ) = ((1 : ℤ) : ℝ) := floorHalf_eval (by norm_num) (by norm_num)
  have hf4 : floorHalf (4 : ℝ) = ((2 : ℤ) : ℝ) := floorHalf_eval (by norm_num) (by norm_num)
  have h1 : Real.sqrt 1 = 1 := Real.sqrt_one
  have h4 : Real.sqrt 4 = 2 := sqrt_eval (by norm_num) (by norm_num)
  have h49 : Real.sqrt 49 = 7 := sqrt_eval (by norm_num) (by norm_num)
  have h100 : Real.sqrt 100 = 10 := sqrt_eval (by norm_num) (by norm_num)
  have h169 : Real.sqrt 169 = 13 := sqrt_eval (by norm_num) (by norm_num)
  have h400 : Real.sqrt 400 = 20 := sqrt_eval (by norm_num) (by norm_num)
  refine ⟨by norm_num, ?_⟩
  have hscaled : boxDistance (scaleRBox 2 ⟨0, 0, 1, 1⟩) (scaleRBox 2 ⟨6, 0, 8, 1⟩) = 13 / 11 := by
    unfold boxDistance get_center_points codeDiag scaleRBox floorHalf at *
    norm_num [hf2, hf4, h4, h169, h400]
  have hplain : boxDistance ⟨0, 0, 1, 1⟩ ⟨6, 0, 8, 1⟩ = 14 / 11 := by
    unfold boxDistance get_center_points codeDiag floorHalf at *
    norm_num [hf1, hf2, h1, h49, h100]
  rw [hscaled, hplain]
  norm_num

/-- Claim C6 (amended): the normalized distance is symmetric for all boxes;
scale invariance does not hold in general (the centers are computed with a
floor division), but it does hold when both boxes have even width and even
height and the factor is a positive integer. -/
theorem c6_symmetry_and_scale :
    (∀ A B : RBox, boxDistance A B = boxDistance B A) ∧
    (∀ (A B : RBox) (k : ℕ), 0 < k →
      (∃ m : ℤ, A.x2 - A.x1 = 2 * m) → (∃ m : ℤ, A.y2 - A.y1 = 2 * m) →
      (∃ m : ℤ, B.x2 - B.x1 = 2 * m) → (∃ m : ℤ, B.y2 - B.y1 = 2 * m) →
      boxDistance (scaleRBox (k : ℝ) A) (scaleRBox (k : ℝ) B) = boxDistance A B) := by
  constructor
  · intro A B
    unfold boxDistance
    rw [show ((get_center_points A).1 - (get_center_points B).1) ^ 2 +
        ((get_center_points A).2 - (get_center_points B).2) ^ 2 =
        ((get_center_points B).1 - (get_center_points A).1) ^ 2 +
        ((get_center_points B).2 - (get_center_points A).2) ^ 2 by ring,
      add_comm (codeDiag A) (codeDiag B)]
  · intro A B k hk hax hay hbx hby
    obtain ⟨hA1, hA2⟩ := center_scale_even k A hax hay
    obtain ⟨hB1, hB2⟩ := center_scale_even k B hbx hby
    have hk0 : (0 : ℝ) ≤ (k : ℝ) := Nat.cast_nonneg k
    have hkne : ((k : ℝ)) ≠ 0 := by
      simp only [ne_eq, Nat.cast_eq_zero]
      omega
    unfold boxDistance
    rw [hA1, hA2, hB1, hB2, codeDiag_scale hk0, codeDiag_scale hk0]
    rw [show ((k : ℝ) * (get_center_points A).1 - (k : ℝ) * (get_center_points B).1) ^ 2 +
        ((k : ℝ) * (get_center_points A).2 - (k : ℝ) * (get_center_points B).2) ^ 2 =
        ((k : ℝ)) ^ 2 * (((get_center_points A).1 - (get_center_points B).1) ^ 2 +
          ((get_center_points A).2 - (get_center_points B).2) ^ 2) by ring,
      Real.sqrt_mul (sq_nonneg ((k : ℝ))), Real.sqrt_sq hk0,
      show (k : ℝ) * codeDiag A + (k : ℝ) * codeDiag B =
        (k : ℝ) * (codeDiag A + codeDiag B) by ring,
      mul_div_assoc ((k : ℝ)) (codeDiag A + codeDiag B) 2,
      mul_div_mul_left _ _ hkne]

/-- Claim C6 witness: the amended scale-invariance statement at the
even-sided boxes `(0, 0, 2, 2)` and `(6, 0, 8, 2)` with factor `k = 2`. -/
theorem c6_witness :
    (0 : ℕ) < 2 ∧
      boxDistance (scaleRBox ((2 : ℕ) : ℝ) ⟨0, 0, 2, 2⟩) (scaleRBox ((2 : ℕ) : ℝ) ⟨6, 0, 8, 2⟩) =
        boxDistance ⟨0, 0, 2, 2⟩ ⟨6, 0, 8, 2⟩ :=
  ⟨by norm_num,
    c6_symmetry_and_scale.2 ⟨0, 0, 2, 2⟩ ⟨6, 0, 8, 2⟩ 2 (by norm_num)
      ⟨1, by norm_num⟩ ⟨1, by norm_num⟩ ⟨1, by norm_num⟩ ⟨1, by norm_num⟩⟩

theorem gcb_self_eval :
    get_closest_box (toRBox T0.avg_box) (List.map toRBox [B0]) = (0, 0) := by
  have havg : T0.avg_box = B0 := by decide
  rw [havg, show List.map toRBox [B0] = [toRBox B0] from rfl,
    get_closest_box_singleton, boxDistance_self]

theorem getElem?_set_true (l : List Bool) (j : ℕ) (hj : j < l.length) :
    ((l.set j true)[j]?).getD false = true := by
  induction l generalizing j with
  | nil => simp at hj
  | cons x xs ih =>
    cases j with
    | zero => simp
    | succ j =>
      simp only [List.set_cons_succ, List.getElem?_cons_succ]
      exact ih j (by simpa using hj)

/-- Claim C5: when two tracks both resolve to the same candidate index `j`
within `dist_thresh`, the later-iterated track is marked hidden, both tracks
are updated with the candidate (ages incremented, `last_seen` reset, the box
appended), the candidate is claimed exactly once, and neither track is
removed. -/
theorem c5_collision (t1 t2 : BoxObject) (bs : List Box) (j : ℕ) (d1 d2 : ℝ)
    (hj : j < bs.length)
    (h1 : get_closest_box (toRBox t1.avg_box) (List.map toRBox bs) = (d1, j))
    (hd1 : d1 < dist_thresh)
    (h2 : get_closest_box (toRBox t2.avg_box) (List.map toRBox bs) = (d2, j))
    (hd2 : d2 < dist_thresh) :
    (update_objects [t1, t2] bs).1 =
      [t1.update (some (bs.getD j dfltBox)),
        ({ t2 with is_hidden := true }).update (some (bs.getD j dfltBox))] ∧
    ((update_objects [t1, t2] bs).1.getD 0 t1).is_hidden = t1.is_hidden ∧
    ((update_objects [t1, t2] bs).1.getD 1 t2).is_hidden = true ∧
    ((update_objects [t1, t2] bs).1.getD 0 t1).age = t1.age + 1 ∧
    ((update_objects [t1, t2] bs).1.getD 1 t2).age = t2.age + 1 ∧
    ((update_objects [t1, t2] bs).1.getD 0 t1).last_seen = 0 ∧
    ((update_objects [t1, t2] bs).1.getD 1 t2).last_seen = 0 ∧
    ((update_objects [t1, t2] bs).1.getD 0 t1).last_boxes =
      t1.last_boxes ++ [bs.getD j dfltBox] ∧
    ((update_objects [t1, t2] bs).1.getD 1 t2).last_boxes =
      t2.last_boxes ++ [bs.getD j dfltBox] ∧
    (update_objects [t1, t2] bs).2.count true = 1 := by
  have hlen0 : ¬(bs.length = 0) := by omega
  have hjr : j < (List.replicate bs.length false).length := by simpa using hj
  have step1 : updateStep bs ([], List.replicate bs.length false) t1 =
      ([t1.update (some (bs.getD j dfltBox))], (List.replicate bs.length false).set j true) := by
    unfold updateStep
    rw [h1]
    simp [if_pos hd1, getD_replicate_false]
  have step2 : updateStep bs
      ([t1.update (some (bs.getD j dfltBox))], (List.replicate bs.length false).set j true) t2 =
      ([t1.update (some (bs.getD j dfltBox)),
         ({ t2 with is_hidden := true }).update (some (bs.getD j dfltBox))],
        (List.replicate bs.length false).set j true) := by
    unfold updateStep
    rw [h2]
    simp [if_pos hd2, getElem?_set_true _ _ hjr, List.set_set]
  have key : update_objects [t1, t2] bs =
      ([t1.update (some (bs.getD j dfltBox)),
         ({ t2 with is_hidden := true }).update (some (bs.getD j dfltBox))],
        (List.replicate bs.length false).set j true) := by
    unfold update_objects
    rw [if_neg hlen0]
    simp only [List.foldl_cons, List.foldl_nil]
    rw [step1, step2]
  rw [key]
  obtain ⟨u1, u2, u3, u4⟩ := update_some_fields t1 (bs.getD j dfltBox)
  obtain ⟨v1, v2, v3, v4⟩ :=
    update_some_fields ({ t2 with is_hidden := true }) (bs.getD j dfltBox)
  refine ⟨rfl, ?_, ?_, ?_, ?_, ?_, ?_, ?_, ?_, ?_⟩
  · simpa using u1
  · simpa using v1
  · simpa using u2
  · simpa using v2
  · simpa using u3
  · simpa using v3
  · simpa using u4
  · simpa using v4
  · exact count_true_set bs.length j hj

/-- Claim C5 witness: two identical fresh tracks on `B0` and the single
candidate `B0`; both match index 0 at distance zero. -/
theorem c5_witness :
    (0 : ℕ) < ([B0] : List Box).length ∧
      get_closest_box (toRBox T0.avg_box) (List.map toRBox [B0]) = (0, 0) ∧
      (0 : ℝ) < dist_thresh ∧
      ((update_objects [T0, T0] [B0]).1 =
        [T0.update (some (([B0] : List Box).getD 0 dfltBox)),
          ({ T0 with is_hidden := true }).update (some (([B0] : List Box).getD 0 dfltBox))] ∧
       ((update_objects [T0, T0] [B0]).1.getD 0 T0).is_hidden = T0.is_hidden ∧
       ((update_objects [T0, T0] [B0]).1.getD 1 T0).is_hidden = true ∧
       ((update_objects [T0, T0] [B0]).1.getD 0 T0).age = T0.age + 1 ∧
       ((update_objects [T0, T0] [B0]).1.getD 1 T0).age = T0.age + 1 ∧
       ((update_objects [T0, T0] [B0]).1.getD 0 T0).last_seen = 0 ∧
       ((update_objects [T0, T0] [B0]).1.getD 1 T0).last_seen = 0 ∧
       ((update_objects [T0, T0] [B0]).1.getD 0 T0).last_boxes =
         T0.last_boxes ++ [([B0] : List Box).getD 0 dfltBox] ∧
       ((update_objects [T0, T0] [B0]).1.getD 1 T0).last_boxes =
         T0.last_boxes ++ [([B0] : List Box).getD 0 dfltBox] ∧
       (update_objects [T0, T0] [B0]).2.count true = 1) :=
  ⟨by norm_num, gcb_self_eval, by norm_num [dist_thresh],
    c5_collision T0 T0 [B0] 0 0 0 (by norm_num) gcb_self_eval
      (by norm_num [dist_thresh]) gcb_self_eval (by norm_num [dist_thresh])⟩
